import Mathlib

/-!
# Chord DHT node (`Node_dth.cpp`): embedding and verified properties

The node of `src/Node_dth.cpp` is embedded as pure functions on an explicit
state.

* A `std::string` is the list of its characters (`Str`).
* `std::hash<std::string>` is implementation defined, so every function that
  hashes takes the hash `H : Str → Nat` (a `size_t` value) as a parameter.
* `std::unordered_map` is an association list in iteration order; the
  iteration order is unspecified in C++, so theorems quantify over all lists.
* `RequestHandler::send_message` is the network; functions that call it take
  the oracle `rpc : Str → Int → Str → Str`.
* `int` values are `Int`; `+` and `-` on `int` wrap to 32 bits (`wrap32`) and
  `%` truncates toward zero (`Int.tmod`), as on the Win32 target.
* An uncaught exception or an out-of-bounds `vector::operator[]` ends the
  request with a `Fault`; the state returned with it is the state at that
  point.
-/

namespace Chord

/-- A `std::string`, as the sequence of its characters. -/
abbrev Str := List Char

/-- The constant `m` of the source: `static constexpr int m = 7`. -/
def m : Nat := 7

/-- The constant `RING_SIZE = 1 << m`. -/
def RING_SIZE : Int := 2 ^ m

/-- Two's-complement wrap of an `int` result to 32 bits. -/
def wrap32 (x : Int) : Int := (x + 2 ^ 31) % 2 ^ 32 - 2 ^ 31

/-- What ends a request abnormally: the two exceptions `std::stoi` throws, and
an out-of-bounds `vector::operator[]`. -/
inductive Fault where
  | invalid_argument
  | out_of_range
  | index_out_of_bounds
  deriving DecidableEq, Repr

/-- The result of handling one request: the reply string, or a fault. -/
inductive Outcome where
  | reply (s : Str)
  | fault (f : Fault)
  deriving DecidableEq, Repr

/-! ## Strings -/

/-- The member `std::string::find(char)`: index of the first occurrence,
`none` for `npos`. -/
def find (c : Char) : Str → Option Nat
  | [] => none
  | x :: xs => if x = c then some 0 else (find c xs).map (· + 1)

/-- The size_t sum `pos + 1`, where `npos + 1` wraps around to `0`. -/
def succ_pos : Option Nat → Nat
  | none => 0
  | some i => i + 1

/-- The member `std::string::substr(pos, count)`; `count = none` is `npos`
(to the end). Every call site of the source has `pos ≤ size`, so the
`out_of_range` case of `substr` does not arise (`succ_pos_find_le`). -/
def substr (s : Str) (pos : Nat) (count : Option Nat) : Str :=
  match count with
  | none => s.drop pos
  | some n => (s.drop pos).take n

/-- The loop `while (std::getline(iss, t, d)) v.push_back(t)`: `cur` is the
token being read. At end of input a token is produced only if characters were
extracted for it. -/
def getline_loop (d : Char) : List Char → Str → List Str
  | [], cur => if cur = [] then [] else [cur]
  | c :: rest, cur =>
    if c = d then cur :: getline_loop d rest [] else getline_loop d rest (cur ++ [c])

/-- The function `Node::split(s, d)`. -/
def split (s : Str) (d : Char) : List Str := getline_loop d s []

/-- The C function `isspace` in the "C" locale. -/
def isspace (c : Char) : Bool :=
  c.toNat = 32 || (9 ≤ c.toNat && c.toNat ≤ 13)

/-- Value of a run of decimal digits. -/
def digits_value (ds : List Char) : Nat :=
  ds.foldl (fun a c => 10 * a + (c.toNat - 48)) 0

/-- The function `std::stoi(s)` (base 10): skips leading white space, reads an
optional sign and the longest run of digits, ignores what follows; throws
`invalid_argument` when there is no digit and `out_of_range` when the value
does not fit an `int`. -/
def stoi (s : Str) : Except Fault Int :=
  let s1 := s.dropWhile isspace
  let signed : Bool × Str :=
    match s1 with
    | c :: r => if c = '-' then (true, r) else if c = '+' then (false, r) else (false, s1)
    | [] => (false, s1)
  let ds := signed.2.takeWhile Char.isDigit
  if ds = [] then Except.error Fault.invalid_argument
  else
    let v : Int := if signed.1 then - (digits_value ds : Int) else (digits_value ds : Int)
    if v < - 2 ^ 31 ∨ 2 ^ 31 - 1 < v then Except.error Fault.out_of_range
    else Except.ok v

/-- The function `std::to_string(int)`. -/
def to_string (n : Int) : Str :=
  if n < 0 then '-' :: Nat.toDigits 10 n.natAbs else Nat.toDigits 10 n.toNat

/-! ## DataStore -/

/-- The member `data_`: the entries of the `unordered_map`, in iteration
order. -/
abbrev Store := List (Str × Str)

/-- The call `data_.erase(k)`. -/
def erase (data : Store) (k : Str) : Store :=
  data.filter (fun p => p.1 ≠ k)

/-- The assignment `data_[k] = v` (`DataStore::insert`): overwrite the value
of an existing key, otherwise add the entry. -/
def insert (data : Store) (k v : Str) : Store :=
  if data.any (fun p => p.1 = k) then
    data.map (fun p => if p.1 = k then (p.1, v) else p)
  else (k, v) :: data

/-- The function `DataStore::remove`. -/
def remove (data : Store) (k : Str) : Store := erase data k

/-- The function `DataStore::search`: the value, or the empty string. -/
def search (data : Store) (k : Str) : Str :=
  match data.find? (fun p => p.1 = k) with
  | some p => p.2
  | none => []

/-- The expression `std::hash<std::string>{}(s) % RING_SIZE` cast to `int`. -/
def hash_str (H : Str → Nat) (s : Str) : Int := ((H s % 128 : Nat) : Int)

/-- The distance `(to - key_id + RING_SIZE) % RING_SIZE` in `int` arithmetic. -/
def dist (to_id key_id : Int) : Int :=
  Int.tmod (wrap32 (wrap32 (to_id - key_id) + RING_SIZE)) RING_SIZE

/-- The test `dist_to_join < dist_to_self` of `send_keys` for one key. -/
def closer (H : Str → Nat) (self_id joining_id : Int) (k : Str) : Bool :=
  let key_id := hash_str H k
  let dist_to_join := dist joining_id key_id
  let dist_to_self := dist self_id key_id
  decide (dist_to_join < dist_to_self)

/-- The first loop of `send_keys`: accumulates the reply `oss` and the keys
`to_remove`. -/
def send_keys_loop (H : Str → Nat) (self_id joining_id : Int) :
    Store → Str × List Str → Str × List Str
  | [], acc => acc
  | p :: rest, acc =>
    if closer H self_id joining_id p.1 then
      send_keys_loop H self_id joining_id rest
        (acc.1 ++ p.1 ++ ['|'] ++ p.2 ++ [':'], acc.2 ++ [p.1])
    else send_keys_loop H self_id joining_id rest acc

/-- The function `DataStore::send_keys(joining_id)`: the reply and the store
afterwards. `self_id` is the result of the virtual `self_id()`. -/
def send_keys (H : Str → Nat) (self_id : Int) (data : Store) (joining_id : Int) :
    Str × Store :=
  let r := send_keys_loop H self_id joining_id data ([], [])
  (r.1, r.2.foldl erase data)

/-! ## NodeInfo, FingerTable, Node -/

/-- The struct `NodeInfo`. -/
structure NodeInfo where
  ip : Str
  port : Int
  id : Int
  deriving DecidableEq, Repr

/-- The default constructor `NodeInfo()`: the unset placeholder. -/
def NodeInfo.unset : NodeInfo := { ip := [], port := 0, id := -1 }

/-- The function `NodeInfo::str`. -/
def NodeInfo.str (ni : NodeInfo) : Str := ni.ip ++ ['|'] ++ to_string ni.port

/-- The constructor `FingerTable(self_id)`: the vector `table`. -/
def FingerTable (self_id : Int) : List (Int × NodeInfo) :=
  (List.range m).map (fun i =>
    (Int.tmod (wrap32 (self_id + 2 ^ i)) RING_SIZE, NodeInfo.unset))

/-- The class `Node` (with the `data_` it inherits from `DataStore`). -/
structure Node where
  self_ : NodeInfo
  pred_ : NodeInfo
  succ_ : NodeInfo
  fingers_ : List (Int × NodeInfo)
  data_ : Store
  deriving DecidableEq, Repr

/-- The constructor `Node(ip, port)`. -/
def Node.new (H : Str → Nat) (ip : Str) (port : Int) : Node :=
  let self_ : NodeInfo :=
    { ip := ip, port := port, id := hash_str H (ip ++ ['|'] ++ to_string port) }
  { self_ := self_, pred_ := NodeInfo.unset, succ_ := self_,
    fingers_ := FingerTable self_.id, data_ := [] }

/-- The function `Node::self_id`. -/
def Node.self_id (n : Node) : Int := n.self_.id

/-- The function `Node::decode`: `parts[0]` and `parts[1]` are unchecked
vector accesses. -/
def decode (H : Str → Nat) (s : Str) : Except Fault NodeInfo :=
  match split s '|' with
  | p0 :: p1 :: _ =>
    match stoi p1 with
    | Except.ok port => Except.ok { ip := p0, port := port, id := hash_str H s }
    | Except.error f => Except.error f
  | _ => Except.error Fault.index_out_of_bounds

/-- The function `Node::find_successor(nid)`. -/
def find_successor (n : Node) (_nid : Int) : NodeInfo :=
  if n.succ_.str = n.self_.str then n.self_ else n.succ_

/-- The function `Node::notify(nid, ni)`. -/
def notify (n : Node) (_nid : Int) (ni : NodeInfo) : Node :=
  { n with pred_ := ni }

/-- The statement `insert(body.substr(0, colon), body.substr(colon+1))` with
`colon = body.find(':')`. -/
def insert_body (data : Store) (body : Str) : Store :=
  let colon := find ':' body
  insert data (substr body 0 colon) (substr body (succ_pos colon) none)

/-- The head of `Node::process_request(msg)`: `bar = msg.find('|')`,
`op = msg.substr(0, bar)` and `body = (bar == npos) ? "" : msg.substr(bar + 1)`;
the result is `(op, body)`. -/
def parse_request (msg : Str) : Str × Str :=
  let bar := find '|' msg
  let op := substr msg 0 bar
  let body : Str := match bar with
    | none => []
    | some _ => substr msg (succ_pos bar) none
  (op, body)

/-- The `if`/`else if` chain of `Node::process_request` on `op` and `body`:
the node afterwards and the reply, or the fault that ended the request. -/
def dispatch (H : Str → Nat) (rpc : Str → Int → Str → Str) (n : Node) (op body : Str) :
    Node × Outcome :=
  if op = "insert_server".toList then
    ({ n with data_ := insert_body n.data_ body }, Outcome.reply "Inserted".toList)
  else if op = "delete_server".toList then
    ({ n with data_ := remove n.data_ body }, Outcome.reply "Deleted".toList)
  else if op = "search_server".toList then
    let v := search n.data_ body
    (n, Outcome.reply (if v = [] then "NOT FOUND".toList else v))
  else if op = "send_keys".toList then
    match stoi body with
    | Except.error f => (n, Outcome.fault f)
    | Except.ok nid =>
      let r := send_keys H n.self_id n.data_ nid
      ({ n with data_ := r.2 }, Outcome.reply r.1)
  else if op = "insert".toList then
    let colon := find ':' body
    let key_id := hash_str H (substr body 0 colon)
    let node := find_successor n key_id
    let _ := rpc node.ip node.port ("insert_server|".toList ++ body)
    (n, Outcome.reply "Done".toList)
  else if op = "delete".toList then
    let key_id := hash_str H body
    let node := find_successor n key_id
    let _ := rpc node.ip node.port ("delete_server|".toList ++ body)
    (n, Outcome.reply "Done".toList)
  else if op = "search".toList then
    let key_id := hash_str H body
    let node := find_successor n key_id
    (n, Outcome.reply (rpc node.ip node.port ("search_server|".toList ++ body)))
  else if op = "join_request".toList then
    match stoi body with
    | Except.error f => (n, Outcome.fault f)
    | Except.ok nid =>
      let node := find_successor n nid
      (n, Outcome.reply node.str)
  else if op = "get_successor".toList then
    (n, Outcome.reply n.succ_.str)
  else if op = "get_predecessor".toList then
    (n, Outcome.reply n.pred_.str)
  else if op = "notify".toList then
    match split body '|' with
    | p0 :: p1 :: _ =>
      match stoi p0 with
      | Except.error f => (n, Outcome.fault f)
      | Except.ok nid =>
        match decode H p1 with
        | Except.error f => (n, Outcome.fault f)
        | Except.ok ni => (notify n nid ni, Outcome.reply [])
    | [p0] =>
      match stoi p0 with
      | Except.error f => (n, Outcome.fault f)
      | Except.ok _ => (n, Outcome.fault Fault.index_out_of_bounds)
    | [] => (n, Outcome.fault Fault.index_out_of_bounds)
  else (n, Outcome.reply [])

/-- The function `Node::process_request(msg)`. -/
def process_request (H : Str → Nat) (rpc : Str → Int → Str → Str) (n : Node) (msg : Str) :
    Node × Outcome :=
  dispatch H rpc n (parse_request msg).1 (parse_request msg).2

/-- The loop of `Node::bootstrap` over `split(kvpairs, ':')`: empty entries
are skipped, the others are inserted as `(entry.substr(0, sep),
entry.substr(sep+1))` with `sep = entry.find('|')`. -/
def absorb_entries : List Str → Store → Store
  | [], data => data
  | entry :: rest, data =>
    if entry = [] then absorb_entries rest data
    else
      let sep := find '|' entry
      absorb_entries rest (insert data (substr entry 0 sep) (substr entry (succ_pos sep) none))

/-- The function `Node::bootstrap(contact_ip, contact_port)`: the node
afterwards, or the fault raised by `decode` on the contact's reply. -/
def bootstrap (H : Str → Nat) (rpc : Str → Int → Str → Str) (n : Node)
    (contact_ip : Str) (contact_port : Int) : Except Fault Node :=
  let reply := rpc contact_ip contact_port ("join_request|".toList ++ to_string n.self_id)
  match decode H reply with
  | Except.error f => Except.error f
  | Except.ok succ_ =>
    let kvpairs := rpc succ_.ip succ_.port ("send_keys|".toList ++ to_string n.self_id)
    Except.ok { n with succ_ := succ_, data_ := absorb_entries (split kvpairs ':') n.data_ }

/-! ## Specification-side vocabulary -/

/-- The wire record of one entry in the reply of `send_keys`: `k|v:`. -/
def record (p : Str × Str) : Str := p.1 ++ ['|'] ++ p.2 ++ [':']

/-- Circular-distance test of the specification, with the mathematical
(non-negative) remainder: `(joining_id - key_id) mod 128 < (self_id - key_id)
mod 128`. -/
def closer_spec (H : Str → Nat) (self_id joining_id : Int) (k : Str) : Prop :=
  (joining_id - hash_str H k) % 128 < (self_id - hash_str H k) % 128

instance (H : Str → Nat) (self_id joining_id : Int) (k : Str) :
    Decidable (closer_spec H self_id joining_id k) := by
  unfold closer_spec; infer_instance

/-- The clockwise arc `(lo, hi]` of the ring of 128 identifiers. -/
def in_arc_oc (lo hi x : Int) : Prop :=
  0 < (x - lo) % 128 ∧ (x - lo) % 128 ≤ (hi - lo) % 128

/-- The clockwise arc `(lo, hi)` of the ring of 128 identifiers. -/
def in_arc_oo (lo hi x : Int) : Prop :=
  0 < (x - lo) % 128 ∧ (x - lo) % 128 < (hi - lo) % 128

instance (lo hi x : Int) : Decidable (in_arc_oc lo hi x) := by
  unfold in_arc_oc; infer_instance

instance (lo hi x : Int) : Decidable (in_arc_oo lo hi x) := by
  unfold in_arc_oo; infer_instance

/-- The entry `data_.find(k)` points at: the value held under `k`, if any. -/
def lookup (data : Store) (k : Str) : Option Str :=
  (data.find? (fun p => p.1 = k)).map Prod.snd

/-- The reply string of an outcome (empty for a fault, as `send_message`
returns the empty string when nothing is received). -/
def Outcome.text : Outcome → Str
  | Outcome.reply s => s
  | Outcome.fault _ => []

deriving instance DecidableEq for Except

/-- A concrete hash used to evaluate the definitions on examples: the sum of
the character codes. -/
def hash_sum (s : Str) : Nat := (s.map Char.toNat).sum

/-! ## Example data -/

/-- A network on which no peer answers: `send_message` returns the empty
string. -/
def rpc_silent : Str → Int → Str → Str := fun _ _ _ => []

/-- The node started as `127.0.0.1|5000`; its identifier under `hash_sum` is
118. -/
def node_Y : Node := Node.new hash_sum "127.0.0.1".toList 5000

/-- The node started as `127.0.0.1|2000`; its identifier under `hash_sum` is
115. -/
def node_X : Node := Node.new hash_sum "127.0.0.1".toList 2000

/-- The node `node_Y` after the requests `insert_server|t:9`,
`insert_server|b:x:a|2:t|9` and `insert_server|a:1`. -/
def node_Y_loaded : Node :=
  (process_request hash_sum rpc_silent
    (process_request hash_sum rpc_silent
      (process_request hash_sum rpc_silent node_Y "insert_server|t:9".toList).1
      "insert_server|b:x:a|2:t|9".toList).1
    "insert_server|a:1".toList).1

/-- The node `node_Y` after the requests `insert_server|t:9` and
`insert_server|a:1`. -/
def node_Y_plain : Node :=
  (process_request hash_sum rpc_silent
    (process_request hash_sum rpc_silent node_Y "insert_server|t:9".toList).1
    "insert_server|a:1".toList).1

/-- A network whose only peer is node `n`: every message is answered with the
reply `n` gives to it. -/
def rpc_to (n : Node) : Str → Int → Str → Str :=
  fun _ _ msg => (process_request hash_sum rpc_silent n msg).2.text

/-- The node of the ring of the specification whose identifier is the first
at or after `c` going clockwise, among `self` and `succ`. -/
def first_at_or_after (self succ : NodeInfo) (c : Int) : NodeInfo :=
  if (self.id - c) % 128 ≤ (succ.id - c) % 128 then self else succ

/-- The node `node_X` once it has joined the ring of `node_Y`: its successor
is `node_Y` (this is `node_X` after `bootstrap` through `node_Y`). -/
def node_X_joined : Node := { node_X with succ_ := node_Y.self_ }

/-- The peer `127.0.0.1|3000`, as `decode` builds it; its identifier under
`hash_sum` is 116. -/
def peer_3000 : NodeInfo :=
  { ip := "127.0.0.1".toList, port := 3000, id := hash_str hash_sum "127.0.0.1|3000".toList }

/-- The six orders in which a map of three entries can be iterated. -/
def orders_of_three (a b c : Str × Str) : List Store :=
  [[a, b, c], [a, c, b], [b, a, c], [b, c, a], [c, a, b], [c, b, a]]

/-- The operation names tested by the chain of `process_request`. -/
def known_ops : List Str :=
  ["insert_server".toList, "delete_server".toList, "search_server".toList,
   "send_keys".toList, "insert".toList, "delete".toList, "search".toList,
   "join_request".toList, "get_successor".toList, "get_predecessor".toList,
   "notify".toList]

/-- The fixed reply of `search_server` for a miss. -/
def NOT_FOUND : Str := "NOT FOUND".toList

/-- The node `node_X` after the request `insert_server|k:`, which stores the
key `k` with the empty value. -/
def node_X_empty_value : Node :=
  (process_request hash_sum rpc_silent node_X "insert_server|k:".toList).1

/-- The node `node_X` after the request `insert_server|k:NOT FOUND`. -/
def node_X_literal_value : Node :=
  (process_request hash_sum rpc_silent node_X "insert_server|k:NOT FOUND".toList).1

/-! ## Lemmas -/

theorem RING_SIZE_eq : RING_SIZE = 128 := by decide

theorem hash_str_range (H : Str → Nat) (s : Str) : 0 ≤ hash_str H s ∧ hash_str H s < 128 := by
  unfold hash_str; omega

theorem dist_eq_emod (t k : Int) (ht : 0 ≤ t) (ht2 : t + 128 < 2 ^ 31) (hk : 0 ≤ k)
    (hk2 : k < 128) : dist t k = (t - k) % 128 := by
  have h1 : wrap32 (t - k) = t - k := by unfold wrap32; omega
  have h2 : wrap32 (t - k + 128) = t - k + 128 := by unfold wrap32; omega
  unfold dist
  rw [RING_SIZE_eq, h1, h2, Int.tmod_eq_emod (by omega) (by omega)]
  omega

theorem closer_iff_spec (H : Str → Nat) (self_id joining_id : Int) (k : Str)
    (hs : 0 ≤ self_id ∧ self_id < 128) (hj : 0 ≤ joining_id ∧ joining_id + 128 < 2 ^ 31) :
    closer H self_id joining_id k = true ↔ closer_spec H self_id joining_id k := by
  have hk := hash_str_range H k
  unfold closer closer_spec
  simp only [decide_eq_true_eq]
  rw [dist_eq_emod joining_id _ hj.1 hj.2 hk.1 hk.2,
    dist_eq_emod self_id _ hs.1 (by omega) hk.1 hk.2]

theorem send_keys_loop_eq (H : Str → Nat) (self_id joining_id : Int) (data : Store)
    (acc : Str × List Str) :
    send_keys_loop H self_id joining_id data acc =
      (acc.1 ++ ((data.filter (fun p => closer H self_id joining_id p.1)).map record).flatten,
       acc.2 ++ (data.filter (fun p => closer H self_id joining_id p.1)).map Prod.fst) := by
  induction data generalizing acc with
  | nil => simp [send_keys_loop]
  | cons p rest ih =>
    unfold send_keys_loop
    by_cases h : closer H self_id joining_id p.1 = true
    · simp [h, ih, record, List.append_assoc]
    · simp [h, ih]

theorem foldl_erase_eq (keys : List Str) (data : Store) :
    keys.foldl erase data = data.filter (fun p => decide (p.1 ∉ keys)) := by
  induction keys generalizing data with
  | nil => simp
  | cons k ks ih =>
    simp only [List.foldl_cons, ih, erase, List.filter_filter]
    apply List.filter_congr
    intro p _
    by_cases h1 : p.1 = k <;> by_cases h2 : p.1 ∈ ks <;> simp [h1, h2]

theorem send_keys_reply (H : Str → Nat) (self_id joining_id : Int) (data : Store) :
    (send_keys H self_id data joining_id).1 =
      ((data.filter (fun p => closer H self_id joining_id p.1)).map record).flatten := by
  simp [send_keys, send_keys_loop_eq]

theorem send_keys_store (H : Str → Nat) (self_id joining_id : Int) (data : Store) :
    (send_keys H self_id data joining_id).2 =
      data.filter (fun p => ! closer H self_id joining_id p.1) := by
  simp only [send_keys, send_keys_loop_eq, foldl_erase_eq, List.nil_append]
  apply List.filter_congr
  intro p hp
  by_cases h : closer H self_id joining_id p.1 = true
  · have : p.1 ∈ (data.filter (fun q => closer H self_id joining_id q.1)).map Prod.fst :=
      List.mem_map.mpr ⟨p, List.mem_filter.mpr ⟨hp, h⟩, rfl⟩
    simp [h, this]
  · have : p.1 ∉ (data.filter (fun q => closer H self_id joining_id q.1)).map Prod.fst := by
      intro hmem
      obtain ⟨q, hq, hqp⟩ := List.mem_map.mp hmem
      have := (List.mem_filter.mp hq).2
      rw [hqp] at this
      exact h this
    simp [h, this]

/-! ## String lemmas -/

theorem find_eq_none (c : Char) (s : Str) (h : c ∉ s) : find c s = none := by
  induction s with
  | nil => rfl
  | cons x xs ih =>
    have hx : x ≠ c := fun e => h (by simp [e])
    have hxs : c ∉ xs := fun e => h (by simp [e])
    simp [find, hx, ih hxs]

theorem find_append_sep (c : Char) (a b : Str) (h : c ∉ a) :
    find c (a ++ c :: b) = some a.length := by
  induction a with
  | nil => simp [find]
  | cons x xs ih =>
    have hx : x ≠ c := fun e => h (by simp [e])
    have hxs : c ∉ xs := fun e => h (by simp [e])
    simp [find, hx, ih hxs]

theorem find_lt_length (c : Char) (s : Str) (i : Nat) (h : find c s = some i) :
    i < s.length := by
  induction s generalizing i with
  | nil => simp [find] at h
  | cons x xs ih =>
    by_cases hx : x = c
    · simp [find, hx] at h
      simp [← h]
    · cases hf : find c xs with
      | none => simp [find, hx, hf] at h
      | some j =>
        have hj := ih j hf
        simp [find, hx, hf] at h
        simp only [List.length_cons]
        omega

/-- Every `substr(pos + 1)` of the source, with `pos` a result of `find`, has
its start within the string, so `substr` does not throw there. -/
theorem succ_pos_find_le (c : Char) (s : Str) : succ_pos (find c s) ≤ s.length := by
  cases h : find c s with
  | none => simp [succ_pos]
  | some i =>
    have := find_lt_length c s i h
    simp only [succ_pos]
    omega

theorem substr_prefix (a b : Str) (c : Char) :
    substr (a ++ c :: b) 0 (some a.length) = a := by
  simp [substr]

theorem substr_suffix (a b : Str) (c : Char) :
    substr (a ++ c :: b) (a.length + 1) none = b := by
  simp [substr]

theorem parse_request_bar (op body : Str) (h : '|' ∉ op) :
    parse_request (op ++ '|' :: body) = (op, body) := by
  simp [parse_request, find_append_sep _ _ _ h, succ_pos, substr]

theorem parse_request_nobar (msg : Str) (h : '|' ∉ msg) :
    parse_request msg = (msg, []) := by
  simp [parse_request, find_eq_none _ _ h, substr]

theorem process_request_bar (H : Str → Nat) (rpc : Str → Int → Str → Str) (n : Node)
    (op body : Str) (h : '|' ∉ op) :
    process_request H rpc n (op ++ '|' :: body) = dispatch H rpc n op body := by
  simp [process_request, parse_request_bar op body h]

theorem getline_loop_token (d : Char) (t rest cur : Str) (h : d ∉ t) :
    getline_loop d (t ++ d :: rest) cur = (cur ++ t) :: getline_loop d rest [] := by
  induction t generalizing cur with
  | nil => simp [getline_loop]
  | cons x xs ih =>
    have hx : x ≠ d := fun e => h (by simp [e])
    have hxs : d ∉ xs := fun e => h (by simp [e])
    simp [getline_loop, hx, ih _ hxs]

/-! ## Store lemmas -/

theorem lookup_insert_same (data : Store) (k v : Str) :
    lookup (insert data k v) k = some v := by
  unfold insert lookup
  by_cases h : data.any (fun p => decide (p.1 = k)) = true
  · simp only [h, if_true]
    induction data with
    | nil => simp at h
    | cons p rest ih =>
      by_cases hp : p.1 = k
      · simp [hp]
      · have hrest : rest.any (fun p => decide (p.1 = k)) = true := by
          simpa [hp] using h
        simpa [hp, List.find?_cons] using ih hrest
  · simp [h]

theorem lookup_insert_other (data : Store) (k v k2 : Str) (hne : k2 ≠ k) :
    lookup (insert data k v) k2 = lookup data k2 := by
  unfold insert lookup
  by_cases h : data.any (fun p => decide (p.1 = k)) = true
  · simp only [h, if_true]
    clear h
    induction data with
    | nil => simp
    | cons p rest ih =>
      obtain ⟨a, b⟩ := p
      by_cases hp : a = k
      · have hp2 : ¬ a = k2 := fun e => hne (e ▸ hp ▸ rfl)
        have hp3 : ¬ k = k2 := fun e => hne e.symm
        simpa [hp, hp2, hp3, List.find?_cons] using ih
      · by_cases hp2 : a = k2
        · subst hp2
          simp [hne, List.find?_cons]
        · simpa [hp, hp2, List.find?_cons] using ih
  · have hp3 : ¬ k = k2 := fun e => hne e.symm
    simp [h, hp3, List.find?_cons]

/-! ## Lemmas on the dispatcher and on the join-time transfer -/

set_option maxRecDepth 100000 in
theorem stoi_to_string_fin :
    ∀ n : Fin 128, stoi (to_string (n.val : Int)) = Except.ok (n.val : Int) := by
  decide

theorem stoi_to_string_id (n : Int) (h : 0 ≤ n ∧ n < 128) :
    stoi (to_string n) = Except.ok n := by
  have := stoi_to_string_fin ⟨n.toNat, by omega⟩
  simpa [Int.toNat_of_nonneg h.1] using this

theorem dispatch_send_keys (H : Str → Nat) (rpc : Str → Int → Str → Str) (n : Node)
    (body : Str) (nid : Int) (h : stoi body = Except.ok nid) :
    dispatch H rpc n "send_keys".toList body =
      ({ n with data_ := (send_keys H n.self_id n.data_ nid).2 },
        Outcome.reply (send_keys H n.self_id n.data_ nid).1) := by
  simp [dispatch, h]

theorem split_records (es : Store) (h : ∀ p ∈ es, ':' ∉ p.1 ∧ ':' ∉ p.2) :
    split ((es.map record).flatten) ':' = es.map (fun p => p.1 ++ '|' :: p.2) := by
  unfold split
  induction es with
  | nil => simp [getline_loop]
  | cons p rest ih =>
    have hp := h p (by simp)
    have hrest : ∀ q ∈ rest, ':' ∉ q.1 ∧ ':' ∉ q.2 := fun q hq => h q (by simp [hq])
    have hnot : ':' ∉ p.1 ++ '|' :: p.2 := by
      simp [hp.1, hp.2]
    have hshape : ((p :: rest).map record).flatten =
        (p.1 ++ '|' :: p.2) ++ ':' :: (rest.map record).flatten := by
      simp [record]
    rw [hshape, getline_loop_token _ _ _ _ hnot, ih hrest]
    simp

theorem absorb_entries_records (es : Store) (data : Store) (h : ∀ p ∈ es, '|' ∉ p.1) :
    absorb_entries (es.map (fun p => p.1 ++ '|' :: p.2)) data =
      es.foldl (fun d p => insert d p.1 p.2) data := by
  induction es generalizing data with
  | nil => simp [absorb_entries]
  | cons p rest ih =>
    have hp := h p (by simp)
    have hrest : ∀ q ∈ rest, '|' ∉ q.1 := fun q hq => h q (by simp [hq])
    simp only [List.map_cons, List.foldl_cons, absorb_entries]
    have hne : p.1 ++ '|' :: p.2 ≠ [] := by simp
    rw [if_neg hne, find_append_sep _ _ _ hp, substr_prefix, succ_pos, substr_suffix]
    exact ih _ hrest

theorem lookup_foldl_insert_other (es : Store) (data : Store) (k : Str)
    (h : k ∉ es.map Prod.fst) :
    lookup (es.foldl (fun d p => insert d p.1 p.2) data) k = lookup data k := by
  induction es generalizing data with
  | nil => simp
  | cons p rest ih =>
    have hk : k ≠ p.1 := fun e => h (by simp [e])
    have hrest : k ∉ rest.map Prod.fst := fun e => h (by simp [e])
    simp only [List.foldl_cons]
    rw [ih _ hrest, lookup_insert_other _ _ _ _ hk]

theorem lookup_foldl_insert_mem (es : Store) (data : Store) (k v : Str)
    (hnodup : (es.map Prod.fst).Nodup) (h : (k, v) ∈ es) :
    lookup (es.foldl (fun d p => insert d p.1 p.2) data) k = some v := by
  induction es generalizing data with
  | nil => simp at h
  | cons p rest ih =>
    simp only [List.map_cons, List.nodup_cons] at hnodup
    simp only [List.foldl_cons]
    rcases List.mem_cons.mp h with hp | hr
    · subst hp
      rw [lookup_foldl_insert_other _ _ _ hnodup.1, lookup_insert_same]
    · exact ih _ hnodup.2 hr

theorem lookup_filter_none (data : Store) (k : Str) (f : Str → Bool) (h : f k = false) :
    lookup (data.filter (fun p => f p.1)) k = none := by
  unfold lookup
  rw [Option.map_eq_none', List.find?_eq_none]
  intro p hp
  have hf := (List.mem_filter.mp hp).2
  simp only [decide_eq_true_eq]
  intro e
  rw [e, h] at hf
  exact Bool.noConfusion hf

theorem send_keys_absent_iff (H : Str → Nat) (self_id joining_id : Int) (data : Store)
    (k v : Str) (hkv : (k, v) ∈ data) :
    (k, v) ∉ (send_keys H self_id data joining_id).2 ↔
      closer H self_id joining_id k = true := by
  rw [send_keys_store]
  simp [List.mem_filter, hkv]

/-! ## C1: `send_keys` partitions the store by circular distance -/

/-- C1: for a self identifier in `[0, 128)` and a joining identifier in
`[0, 128)` (the proof needs only that `joining_id` is non-negative and that
`joining_id + 128` fits an `int`), the reply of `send_keys` is the
concatenation of the records `k|v:` of exactly the entries with
`(joining_id - key_id) mod 128 < (self_id - key_id) mod 128`, the store
afterwards consists of exactly the other entries (unchanged, in the same
order), an entry held before is absent afterwards if and only if that test
holds, and no entry is added. -/
theorem send_keys_partition (H : Str → Nat) (self_id joining_id : Int) (data : Store)
    (hs : 0 ≤ self_id ∧ self_id < 128) (hj : 0 ≤ joining_id ∧ joining_id + 128 < 2 ^ 31) :
    (send_keys H self_id data joining_id).1 =
        ((data.filter (fun p => decide (closer_spec H self_id joining_id p.1))).map
          record).flatten ∧
    (send_keys H self_id data joining_id).2 =
        data.filter (fun p => decide (¬ closer_spec H self_id joining_id p.1)) ∧
    (∀ k v, (k, v) ∈ data →
        ((k, v) ∉ (send_keys H self_id data joining_id).2 ↔
          closer_spec H self_id joining_id k)) ∧
    (∀ e, e ∈ (send_keys H self_id data joining_id).2 → e ∈ data) := by
  have hc : ∀ k, closer H self_id joining_id k = decide (closer_spec H self_id joining_id k) := by
    intro k
    by_cases h : closer_spec H self_id joining_id k
    · simp [h, (closer_iff_spec H self_id joining_id k hs hj).mpr h]
    · have : ¬ closer H self_id joining_id k = true :=
        fun hh => h ((closer_iff_spec H self_id joining_id k hs hj).mp hh)
      simp [h, this]
  have hstore : (send_keys H self_id data joining_id).2 =
      data.filter (fun p => decide (¬ closer_spec H self_id joining_id p.1)) := by
    rw [send_keys_store]
    apply List.filter_congr
    intro p _
    simp [hc]
  refine ⟨?_, hstore, ?_, ?_⟩
  · rw [send_keys_reply]
    simp only [hc]
  · intro k v hkv
    rw [hstore]
    simp [List.mem_filter, hkv]
  · intro e he
    rw [hstore] at he
    exact (List.mem_filter.mp he).1

/-- C1, witness: the partition at self 14, joining identifier 100 and the store
`a ↦ 1`. -/
theorem send_keys_partition_witness :
    (0 ≤ (14 : Int) ∧ (14 : Int) < 128) ∧ (0 ≤ (100 : Int) ∧ (100 : Int) + 128 < 2 ^ 31) ∧
    (send_keys hash_sum 14 [("a".toList, "1".toList)] 100).1 =
      (([("a".toList, "1".toList)].filter
        (fun p => decide (closer_spec hash_sum 14 100 p.1))).map record).flatten :=
  ⟨by decide, by decide,
    (send_keys_partition hash_sum 14 100 [("a".toList, "1".toList)] (by decide) (by decide)).1⟩

/-! ## C2: ownership hand-over of `send_keys` -/

theorem closer_spec_iff_arc (H : Str → Nat) (p s j : Int) (k : Str)
    (hjarc : in_arc_oo p s j) (hkarc : in_arc_oc p s (hash_str H k)) :
    closer_spec H s j k ↔ in_arc_oc p j (hash_str H k) := by
  have hk := hash_str_range H k
  unfold in_arc_oo at hjarc
  unfold in_arc_oc at hkarc
  unfold closer_spec in_arc_oc
  omega

/-- C2: for identifiers `p` (predecessor), `s` (self), `j` (joining node), the
latter two in `[0, 128)` (for `p` the range is not needed), with `j` strictly inside the clockwise arc `(p, s)`, and an entry
`(k, v)` of the store whose key identifier lies in the owned arc `(p, s]`:
`send_keys(j)` removes the entry from the store, and puts its record in the
reply, if and only if the key identifier lies in `(p, j]`; an entry whose key
identifier lies in `(j, s]` is kept. The reply is the concatenation of the
records of the entries that pass the test of the loop. -/
theorem send_keys_handover (H : Str → Nat) (p s j : Int) (data : Store) (k v : Str)
    (hs : 0 ≤ s ∧ s < 128) (hj : 0 ≤ j ∧ j < 128)
    (hjarc : in_arc_oo p s j) (hkarc : in_arc_oc p s (hash_str H k))
    (hkv : (k, v) ∈ data) :
    ((k, v) ∉ (send_keys H s data j).2 ↔ in_arc_oc p j (hash_str H k)) ∧
    ((k, v) ∈ data.filter (fun q => closer H s j q.1) ↔ in_arc_oc p j (hash_str H k)) ∧
    (send_keys H s data j).1 =
      ((data.filter (fun q => closer H s j q.1)).map record).flatten ∧
    (in_arc_oc j s (hash_str H k) → (k, v) ∈ (send_keys H s data j).2) := by
  have hj2 : 0 ≤ j ∧ j + 128 < 2 ^ 31 := ⟨hj.1, by omega⟩
  have harc := closer_spec_iff_arc H p s j k hjarc hkarc
  have hcl := closer_iff_spec H s j k hs hj2
  have habs := send_keys_absent_iff H s j data k v hkv
  refine ⟨?_, ?_, send_keys_reply H s j data, ?_⟩
  · exact habs.trans (hcl.trans harc)
  · rw [List.mem_filter]
    constructor
    · intro h
      exact harc.mp (hcl.mp h.2)
    · intro h
      exact ⟨hkv, hcl.mpr (harc.mpr h)⟩
  · intro hjs
    by_contra hnot
    have h1 := harc.mp (hcl.mp (habs.mp hnot))
    have hk := hash_str_range H k
    unfold in_arc_oc at h1 hjs hkarc
    unfold in_arc_oo at hjarc
    omega

/-- C2, witness: predecessor 10, self 118, joining node 100, and the store
`a ↦ 1` whose key identifier 97 lies in `(10, 100]`. -/
theorem send_keys_handover_witness :
    in_arc_oo 10 118 100 ∧ in_arc_oc 10 118 (hash_str hash_sum "a".toList) ∧
    (("a".toList, "1".toList) ∉ (send_keys hash_sum 118 [("a".toList, "1".toList)] 100).2 ↔
      in_arc_oc 10 100 (hash_str hash_sum "a".toList)) :=
  ⟨by decide, by decide,
    (send_keys_handover hash_sum 10 118 100 [("a".toList, "1".toList)] "a".toList "1".toList
      (by decide) (by decide) (by decide) (by decide) (by simp)).1⟩

/-! ## C3: join-time transfer through the wire encoding -/

/-- C3 (amended): node `X` bootstraps; the contact's `join_request` reply
decodes to `succ`, and the reply `r` that node `Y` gives to
`send_keys|<id_X>` is delivered unchanged as the answer of `succ`. If the keys
of `Y` are distinct (it is a map) and every entry of `Y` that is closer to
`id_X` than to `id_Y` has a key without vertical bar and colon and a value without
colon, then bootstrap completes, every such closer entry `(k, v)` is held by
`X` under `k` with value `v` afterwards and `Y` no longer holds `k`, and under
every key that is not the key of a closer entry the store of `X` is as
before (so no other entry of `Y` is inserted at `X`). -/
theorem bootstrap_receives_keys (H : Str → Nat) (rpc rpcY : Str → Int → Str → Str)
    (X Y Y2 : Node) (contact_ip : Str) (contact_port : Int) (succ : NodeInfo) (r : Str)
    (hX : 0 ≤ X.self_id ∧ X.self_id < 128) (hY : 0 ≤ Y.self_id ∧ Y.self_id < 128)
    (hjoin : decode H (rpc contact_ip contact_port
        ("join_request|".toList ++ to_string X.self_id)) = Except.ok succ)
    (hsend : process_request H rpcY Y ("send_keys|".toList ++ to_string X.self_id) =
        (Y2, Outcome.reply r))
    (hdeliver : rpc succ.ip succ.port ("send_keys|".toList ++ to_string X.self_id) = r)
    (hnodup : (Y.data_.map Prod.fst).Nodup)
    (hwf : ∀ p ∈ Y.data_, closer_spec H Y.self_id X.self_id p.1 →
        '|' ∉ p.1 ∧ ':' ∉ p.1 ∧ ':' ∉ p.2) :
    ∃ X2, bootstrap H rpc X contact_ip contact_port = Except.ok X2 ∧
      (∀ k v, (k, v) ∈ Y.data_ → closer_spec H Y.self_id X.self_id k →
        lookup X2.data_ k = some v ∧ lookup Y2.data_ k = none) ∧
      (∀ k, (∀ v, (k, v) ∈ Y.data_ → ¬ closer_spec H Y.self_id X.self_id k) →
        lookup X2.data_ k = lookup X.data_ k) := by
  have hXw : 0 ≤ X.self_id ∧ X.self_id + 128 < 2 ^ 31 := ⟨hX.1, by omega⟩
  have hcl : ∀ k, closer H Y.self_id X.self_id k = true ↔ closer_spec H Y.self_id X.self_id k :=
    fun k => closer_iff_spec H Y.self_id X.self_id k hY hXw
  -- what `Y` does with the request
  have hmsg : "send_keys|".toList ++ to_string X.self_id =
      "send_keys".toList ++ '|' :: to_string X.self_id := by simp
  rw [hmsg, process_request_bar H rpcY Y _ _ (by decide),
    dispatch_send_keys H rpcY Y _ _ (stoi_to_string_id _ hX)] at hsend
  have hY2 : Y2.data_ = (send_keys H Y.self_id Y.data_ X.self_id).2 := by
    rw [← (Prod.mk.inj hsend).1]
  have hr : r = (send_keys H Y.self_id Y.data_ X.self_id).1 := by
    have := (Prod.mk.inj hsend).2
    injection this with this
    exact this.symm
  -- the entries sent
  have hes : ∀ p ∈ Y.data_.filter (fun q => closer H Y.self_id X.self_id q.1),
      '|' ∉ p.1 ∧ ':' ∉ p.1 ∧ ':' ∉ p.2 := by
    intro p hp
    have := List.mem_filter.mp hp
    exact hwf p this.1 ((hcl p.1).mp this.2)
  have hkeys : ((Y.data_.filter (fun q => closer H Y.self_id X.self_id q.1)).map
      Prod.fst).Nodup :=
    List.Nodup.sublist (List.Sublist.map _ (List.filter_sublist _)) hnodup
  refine ⟨{ X with
    succ_ := succ
    data_ := (Y.data_.filter (fun q => closer H Y.self_id X.self_id q.1)).foldl
      (fun d p => insert d p.1 p.2) X.data_ }, ?_, ?_, ?_⟩
  · unfold bootstrap
    simp only [hjoin, hdeliver, hr, send_keys_reply]
    rw [split_records _ (fun p hp => ⟨(hes p hp).2.1, (hes p hp).2.2⟩),
      absorb_entries_records _ _ (fun p hp => (hes p hp).1)]
  · intro k v hkv hk
    constructor
    · exact lookup_foldl_insert_mem _ _ k v hkeys
        (List.mem_filter.mpr ⟨hkv, (hcl k).mpr hk⟩)
    · rw [hY2, send_keys_store]
      apply lookup_filter_none _ k (fun x => ! closer H Y.self_id X.self_id x)
      simp [(hcl k).mpr hk]
  · intro k hk
    apply lookup_foldl_insert_other
    intro hmem
    obtain ⟨q, hq, hqk⟩ := List.mem_map.mp hmem
    have hq2 := List.mem_filter.mp hq
    have hqc := (hcl q.1).mp hq2.2
    rw [hqk] at hqc
    exact hk q.2 (by rw [← hqk]; exact hq2.1) hqc

set_option maxRecDepth 100000 in
/-- C3, witness: `node_X` (identifier 115) bootstraps through `node_Y_plain`
(identifier 118, holding `a ↦ 1` and `t ↦ 9`); the entry `a ↦ 1` is closer to
115 and moves, `t ↦ 9` (key identifier 116) stays. -/
theorem bootstrap_receives_keys_witness :
    (∀ p ∈ node_Y_plain.data_, closer_spec hash_sum node_Y_plain.self_id node_X.self_id p.1 →
        '|' ∉ p.1 ∧ ':' ∉ p.1 ∧ ':' ∉ p.2) ∧
    ∃ X2, bootstrap hash_sum (rpc_to node_Y_plain) node_X "127.0.0.1".toList 5000 =
        Except.ok X2 ∧
      (∀ k v, (k, v) ∈ node_Y_plain.data_ →
        closer_spec hash_sum node_Y_plain.self_id node_X.self_id k →
        lookup X2.data_ k = some v ∧
        lookup (process_request hash_sum rpc_silent node_Y_plain
          ("send_keys|".toList ++ to_string node_X.self_id)).1.data_ k = none) ∧
      (∀ k, (∀ v, (k, v) ∈ node_Y_plain.data_ →
          ¬ closer_spec hash_sum node_Y_plain.self_id node_X.self_id k) →
        lookup X2.data_ k = lookup node_X.data_ k) :=
  ⟨by decide,
    bootstrap_receives_keys hash_sum (rpc_to node_Y_plain) rpc_silent node_X node_Y_plain
      (process_request hash_sum rpc_silent node_Y_plain
        ("send_keys|".toList ++ to_string node_X.self_id)).1
      "127.0.0.1".toList 5000 node_Y.self_ "a|1:".toList
      (by decide) (by decide) (by decide) (by decide) (by decide) (by decide) (by decide)⟩

set_option maxRecDepth 100000 in
/-- C3, counterexample: `node_Y_loaded` (identifier 118) holds `a ↦ 1`,
`b ↦ x:a|2:t|9` and `t ↦ 9`, iterated in this order. For the joining
`node_X` (identifier 115) the entries `a` and `b` are closer to 115 and `t`
(key identifier 116) is not; the key `a` has no vertical bar and no colon and
its value `1` no colon. The reply to `send_keys|115` is `a|1:b|x:a|2:t|9:`,
which bootstrap splits into `a|1`, `b|x`, `a|2`, `t|9`: afterwards `X` holds
`a ↦ 2`, not `a ↦ 1`, and it holds `t ↦ 9` although that entry of `Y` is not
closer to `X` (and is still held by `Y`). The second defect does not depend
on the iteration order of the map: in each of the six orders of the three
entries `X` ends up holding `t ↦ 9`. -/
theorem bootstrap_colon_value_counterexample :
    node_Y_loaded.data_ =
      [("a".toList, "1".toList), ("b".toList, "x:a|2:t|9".toList), ("t".toList, "9".toList)] ∧
    node_Y_loaded.self_id = 118 ∧ node_X.self_id = 115 ∧
    closer_spec hash_sum 118 115 "a".toList ∧
    ¬ closer_spec hash_sum 118 115 "t".toList ∧
    process_request hash_sum rpc_silent node_Y_loaded "send_keys|115".toList =
      ({ node_Y_loaded with data_ := [("t".toList, "9".toList)] },
        Outcome.reply "a|1:b|x:a|2:t|9:".toList) ∧
    bootstrap hash_sum (rpc_to node_Y_loaded) node_X "127.0.0.1".toList 5000 =
      Except.ok { node_X with
        succ_ := node_Y.self_
        data_ := [("t".toList, "9".toList), ("b".toList, "x".toList),
          ("a".toList, "2".toList)] } ∧
    (∀ d ∈ orders_of_three ("a".toList, "1".toList) ("b".toList, "x:a|2:t|9".toList)
        ("t".toList, "9".toList),
      (bootstrap hash_sum (rpc_to { node_Y_loaded with data_ := d }) node_X
          "127.0.0.1".toList 5000).toOption.map (fun X2 => lookup X2.data_ "t".toList) =
        some (some "9".toList)) := by
  decide

/-! ## C4: `join_request` -/

theorem find_successor_str (n : Node) (nid : Int) :
    (find_successor n nid).str = n.succ_.str := by
  unfold find_successor
  by_cases h : n.succ_.str = n.self_.str
  · simp [h]
  · simp [h]

theorem dispatch_join_request (H : Str → Nat) (rpc : Str → Int → Str → Str) (n : Node)
    (body : Str) (nid : Int) (h : stoi body = Except.ok nid) :
    dispatch H rpc n "join_request".toList body = (n, Outcome.reply n.succ_.str) := by
  simp [dispatch, h, find_successor_str]

/-- C4 (amended): for every node and every candidateId in `[0, 128)`,
`join_request|<candidateId>` leaves the node as it is and replies with the
`ip|port` of the node's successor pointer, whatever the candidate; on a
freshly constructed (singleton) node that is the node's own `ip|port`. -/
theorem join_request_replies_successor (H : Str → Nat) (rpc : Str → Int → Str → Str)
    (n : Node) (c : Int) (hc : 0 ≤ c ∧ c < 128) :
    process_request H rpc n ("join_request|".toList ++ to_string c) =
      (n, Outcome.reply n.succ_.str) ∧
    ∀ (ip : Str) (port : Int),
      process_request H rpc (Node.new H ip port) ("join_request|".toList ++ to_string c) =
        (Node.new H ip port, Outcome.reply (ip ++ ['|'] ++ to_string port)) := by
  have hmsg : "join_request|".toList ++ to_string c =
      "join_request".toList ++ '|' :: to_string c := by simp
  have key : ∀ n2 : Node, process_request H rpc n2 ("join_request|".toList ++ to_string c) =
      (n2, Outcome.reply n2.succ_.str) := by
    intro n2
    rw [hmsg, process_request_bar H rpc n2 _ _ (by decide),
      dispatch_join_request H rpc n2 _ c (stoi_to_string_id c hc)]
  refine ⟨key n, ?_⟩
  intro ip port
  rw [key]
  rfl

/-- C4, witness: candidate 0 at the joined node `node_X_joined`. -/
theorem join_request_replies_successor_witness :
    (0 ≤ (0 : Int) ∧ (0 : Int) < 128) ∧
    process_request hash_sum rpc_silent node_X_joined ("join_request|".toList ++ to_string 0) =
      (node_X_joined, Outcome.reply node_X_joined.succ_.str) :=
  ⟨by decide, (join_request_replies_successor hash_sum rpc_silent node_X_joined 0 (by decide)).1⟩

set_option maxRecDepth 100000 in
/-- C4, counterexample: the ring is `node_X_joined` (identifier 115) and its
successor `node_Y` (identifier 118). The candidate 0 lies in the clockwise arc
`(118, 115]`, so the first node at or after it is the node itself,
`127.0.0.1|2000`; the reply to `join_request|0` is the successor,
`127.0.0.1|5000`. -/
theorem join_request_ignores_candidate_counterexample :
    bootstrap hash_sum (rpc_to node_Y) node_X "127.0.0.1".toList 5000 =
      Except.ok node_X_joined ∧
    node_X_joined.self_.id = 115 ∧ node_X_joined.succ_.id = 118 ∧
    in_arc_oc node_X_joined.succ_.id node_X_joined.self_.id 0 ∧
    first_at_or_after node_X_joined.self_ node_X_joined.succ_ 0 = node_X_joined.self_ ∧
    node_X_joined.self_.str = "127.0.0.1|2000".toList ∧
    process_request hash_sum rpc_silent node_X_joined "join_request|0".toList =
      (node_X_joined, Outcome.reply "127.0.0.1|5000".toList) := by
  decide

/-! ## C5: `notify` -/

/-- C5 (amended): `notify(candidateId, candidateInfo)` replaces the
predecessor with `candidateInfo` for every candidateId, whether or not it
lies between the current predecessor and self, and changes nothing else. -/
theorem notify_always_accepts (n : Node) (nid : Int) (ni : NodeInfo) :
    (notify n nid ni).pred_ = ni ∧ (notify n nid ni).self_ = n.self_ ∧
    (notify n nid ni).succ_ = n.succ_ ∧ (notify n nid ni).fingers_ = n.fingers_ ∧
    (notify n nid ni).data_ = n.data_ :=
  ⟨rfl, rfl, rfl, rfl, rfl⟩

set_option maxRecDepth 100000 in
/-- C5, counterexample: the node 115 has predecessor `node_Y` (identifier
118); the candidate `127.0.0.1|3000` has identifier 116, which is not strictly
between 118 and 115 going clockwise, yet `notify` makes it the predecessor. -/
theorem notify_unconditional_counterexample :
    (notify node_X 118 node_Y.self_).pred_.id = 118 ∧
    (notify node_X 118 node_Y.self_).self_.id = 115 ∧
    peer_3000.id = 116 ∧
    ¬ in_arc_oo 118 115 116 ∧
    peer_3000 ≠ (notify node_X 118 node_Y.self_).pred_ ∧
    (notify (notify node_X 118 node_Y.self_) 116 peer_3000).pred_ = peer_3000 := by
  decide

/-! ## C6: the `notify` request -/

theorem getline_loop_no_delim (d : Char) (s cur : Str) (h : d ∉ s) :
    getline_loop d s cur = if cur ++ s = [] then [] else [cur ++ s] := by
  induction s generalizing cur with
  | nil => simp [getline_loop]
  | cons x xs ih =>
    have hx : x ≠ d := fun e => h (by simp [e])
    have hxs : d ∉ xs := fun e => h (by simp [e])
    simp [getline_loop, hx, ih _ hxs]

theorem getline_loop_tokens (d : Char) (s cur : Str) (h : d ∉ cur) :
    ∀ t ∈ getline_loop d s cur, d ∉ t := by
  induction s generalizing cur with
  | nil =>
    intro t ht
    by_cases hc : cur = []
    · simp [getline_loop, hc] at ht
    · simp only [getline_loop, hc, if_false, List.mem_singleton] at ht
      rw [ht]
      exact h
  | cons x xs ih =>
    intro t ht
    by_cases hx : x = d
    · simp only [getline_loop, hx, if_true, List.mem_cons] at ht
      rcases ht with ht | ht
      · rw [ht]
        exact h
      · exact ih [] (by simp) t ht
    · simp only [getline_loop, hx, if_false] at ht
      have hcur : d ∉ cur ++ [x] := by
        simp only [List.mem_append, List.mem_singleton, not_or]
        exact ⟨h, fun e => hx e.symm⟩
      exact ih _ hcur t ht

theorem decode_no_bar (H : Str → Nat) (s : Str) (h : '|' ∉ s) :
    decode H s = Except.error Fault.index_out_of_bounds := by
  unfold decode split
  rw [getline_loop_no_delim _ _ _ h]
  by_cases hs : s = [] <;> simp [hs]

theorem dispatch_notify_faults (H : Str → Nat) (rpc : Str → Int → Str → Str) (n : Node)
    (body : Str) : ∃ f, dispatch H rpc n "notify".toList body = (n, Outcome.fault f) := by
  have htok := getline_loop_tokens '|' body [] (by simp)
  have hd : dispatch H rpc n "notify".toList body =
      (match split body '|' with
        | p0 :: p1 :: _ =>
          match stoi p0 with
          | Except.error f => (n, Outcome.fault f)
          | Except.ok nid =>
            match decode H p1 with
            | Except.error f => (n, Outcome.fault f)
            | Except.ok ni => (notify n nid ni, Outcome.reply [])
        | [p0] =>
          match stoi p0 with
          | Except.error f => (n, Outcome.fault f)
          | Except.ok _ => (n, Outcome.fault Fault.index_out_of_bounds)
        | [] => (n, Outcome.fault Fault.index_out_of_bounds)) := by
    simp [dispatch]
  rw [hd]
  unfold split at *
  cases hsp : getline_loop '|' body [] with
  | nil => exact ⟨_, rfl⟩
  | cons p0 rest =>
    cases rest with
    | nil =>
      cases hst : stoi p0 with
      | error f => exact ⟨f, by simp [hst]⟩
      | ok v => exact ⟨Fault.index_out_of_bounds, by simp [hst]⟩
    | cons p1 rest2 =>
      have hp1 : '|' ∉ p1 := htok p1 (by simp [hsp])
      cases hst : stoi p0 with
      | error f => exact ⟨f, by simp [hst]⟩
      | ok v => exact ⟨Fault.index_out_of_bounds, by simp [hst, decode_no_bar H p1 hp1]⟩

set_option maxRecDepth 100000 in
/-- C6 (the code at the failing input, and in general): no `notify` request
completes. For every node and every body, `notify|<body>` ends in a fault
with the node unchanged, because `decode` is given the single field
`parts[1]`, which holds no vertical bar, and indexes the second part of it.
At `notify|116|127.0.0.1|3000` the fault is the out-of-bounds index and the
predecessor stays unset (`get_predecessor` replies `|0`). -/
theorem notify_request_faults (H : Str → Nat) (rpc : Str → Int → Str → Str) (n : Node)
    (body : Str) :
    (∃ f, process_request H rpc n ("notify|".toList ++ body) = (n, Outcome.fault f)) ∧
    process_request hash_sum rpc_silent node_X "notify|116|127.0.0.1|3000".toList =
      (node_X, Outcome.fault Fault.index_out_of_bounds) ∧
    process_request hash_sum rpc_silent node_X "get_predecessor".toList =
      (node_X, Outcome.reply "|0".toList) := by
  refine ⟨?_, by decide, by decide⟩
  have hmsg : "notify|".toList ++ body = "notify".toList ++ '|' :: body := by simp
  rw [hmsg, process_request_bar H rpc n _ _ (by decide)]
  exact dispatch_notify_faults H rpc n body

/-! ## The branches of the dispatcher -/

theorem dispatch_insert_server (H : Str → Nat) (rpc : Str → Int → Str → Str) (n : Node)
    (body : Str) :
    dispatch H rpc n "insert_server".toList body =
      ({ n with data_ := insert_body n.data_ body }, Outcome.reply "Inserted".toList) := by
  simp [dispatch]

theorem dispatch_delete_server (H : Str → Nat) (rpc : Str → Int → Str → Str) (n : Node)
    (body : Str) :
    dispatch H rpc n "delete_server".toList body =
      ({ n with data_ := remove n.data_ body }, Outcome.reply "Deleted".toList) := by
  simp [dispatch]

theorem dispatch_search_server (H : Str → Nat) (rpc : Str → Int → Str → Str) (n : Node)
    (body : Str) :
    dispatch H rpc n "search_server".toList body =
      (n, Outcome.reply
        (if search n.data_ body = [] then "NOT FOUND".toList else search n.data_ body)) := by
  simp [dispatch]

theorem dispatch_insert (H : Str → Nat) (rpc : Str → Int → Str → Str) (n : Node)
    (body : Str) :
    dispatch H rpc n "insert".toList body = (n, Outcome.reply "Done".toList) := by
  simp [dispatch]

theorem dispatch_delete (H : Str → Nat) (rpc : Str → Int → Str → Str) (n : Node)
    (body : Str) :
    dispatch H rpc n "delete".toList body = (n, Outcome.reply "Done".toList) := by
  simp [dispatch]

theorem dispatch_search (H : Str → Nat) (rpc : Str → Int → Str → Str) (n : Node)
    (body : Str) :
    dispatch H rpc n "search".toList body =
      (n, Outcome.reply (rpc (find_successor n (hash_str H body)).ip
        (find_successor n (hash_str H body)).port ("search_server|".toList ++ body))) := by
  simp [dispatch]

theorem dispatch_get_successor (H : Str → Nat) (rpc : Str → Int → Str → Str) (n : Node)
    (body : Str) :
    dispatch H rpc n "get_successor".toList body = (n, Outcome.reply n.succ_.str) := by
  simp [dispatch]

theorem dispatch_get_predecessor (H : Str → Nat) (rpc : Str → Int → Str → Str) (n : Node)
    (body : Str) :
    dispatch H rpc n "get_predecessor".toList body = (n, Outcome.reply n.pred_.str) := by
  simp [dispatch]

theorem dispatch_join_request_error (H : Str → Nat) (rpc : Str → Int → Str → Str)
    (n : Node) (body : Str) (f : Fault) (h : stoi body = Except.error f) :
    dispatch H rpc n "join_request".toList body = (n, Outcome.fault f) := by
  simp [dispatch, h]

theorem dispatch_unknown (H : Str → Nat) (rpc : Str → Int → Str → Str) (n : Node)
    (op body : Str) (h : op ∉ known_ops) :
    dispatch H rpc n op body = (n, Outcome.reply []) := by
  simp only [known_ops, List.mem_cons, List.mem_singleton, List.not_mem_nil, or_false,
    not_or] at h
  obtain ⟨h1, h2, h3, h4, h5, h6, h7, h8, h9, h10, h11⟩ := h
  unfold dispatch
  rw [if_neg h1, if_neg h2, if_neg h3, if_neg h4, if_neg h5, if_neg h6, if_neg h7, if_neg h8,
    if_neg h9, if_neg h10, if_neg h11]

theorem search_eq_lookup (data : Store) (k : Str) :
    search data k = (lookup data k).getD [] := by
  unfold search lookup
  cases data.find? (fun p => decide (p.1 = k)) <;> rfl

/-! ## C7: malformed requests -/

/-- Requests that are answered: for every message whose operation is not
`notify` and whose body, when the operation is `send_keys` or `join_request`,
is accepted by `std::stoi`, `process_request` returns a reply (no exception,
no out-of-bounds index); for an unknown operation, also in a message without
vertical bar, the reply is empty and the node is unchanged. -/
theorem process_request_replies (H : Str → Nat) (rpc : Str → Int → Str → Str) (n : Node)
    (msg : Str) (hnotify : (parse_request msg).1 ≠ "notify".toList)
    (hnum : (parse_request msg).1 = "send_keys".toList ∨
        (parse_request msg).1 = "join_request".toList →
      ∃ nid, stoi (parse_request msg).2 = Except.ok nid) :
    (∃ n2 r, process_request H rpc n msg = (n2, Outcome.reply r)) ∧
    ((parse_request msg).1 ∉ known_ops →
      process_request H rpc n msg = (n, Outcome.reply [])) := by
  unfold process_request
  generalize (parse_request msg).1 = op at *
  generalize (parse_request msg).2 = body at *
  refine ⟨?_, dispatch_unknown H rpc n op body⟩
  by_cases hk : op ∈ known_ops
  · simp only [known_ops, List.mem_cons, List.mem_singleton, List.not_mem_nil, or_false] at hk
    rcases hk with h | h | h | h | h | h | h | h | h | h | h
    · exact ⟨_, _, h ▸ dispatch_insert_server H rpc n body⟩
    · exact ⟨_, _, h ▸ dispatch_delete_server H rpc n body⟩
    · exact ⟨_, _, h ▸ dispatch_search_server H rpc n body⟩
    · obtain ⟨nid, hn⟩ := hnum (Or.inl h)
      exact ⟨_, _, h ▸ dispatch_send_keys H rpc n body nid hn⟩
    · exact ⟨_, _, h ▸ dispatch_insert H rpc n body⟩
    · exact ⟨_, _, h ▸ dispatch_delete H rpc n body⟩
    · exact ⟨_, _, h ▸ dispatch_search H rpc n body⟩
    · obtain ⟨nid, hn⟩ := hnum (Or.inr h)
      exact ⟨_, _, h ▸ dispatch_join_request H rpc n body nid hn⟩
    · exact ⟨_, _, h ▸ dispatch_get_successor H rpc n body⟩
    · exact ⟨_, _, h ▸ dispatch_get_predecessor H rpc n body⟩
    · exact absurd h hnotify
  · exact ⟨_, _, dispatch_unknown H rpc n op body hk⟩

set_option maxRecDepth 100000 in
/-- The message `hello`, without vertical bar and with an unknown operation,
is answered with the empty reply at `node_X`. -/
theorem process_request_replies_witness :
    (parse_request "hello".toList).1 ∉ known_ops ∧
    process_request hash_sum rpc_silent node_X "hello".toList = (node_X, Outcome.reply []) :=
  ⟨by decide,
    (process_request_replies hash_sum rpc_silent node_X "hello".toList (by decide)
      (fun h => absurd h (by decide))).2 (by decide)⟩

theorem dispatch_send_keys_error (H : Str → Nat) (rpc : Str → Int → Str → Str)
    (n : Node) (body : Str) (f : Fault) (h : stoi body = Except.error f) :
    dispatch H rpc n "send_keys".toList body = (n, Outcome.fault f) := by
  simp [dispatch, h]

/-- C7 (the code on malformed numeric bodies): whenever `std::stoi` rejects
the body with the exception `f`, both `join_request|<body>` and
`send_keys|<body>` end in that uncaught exception instead of a reply, with the
node, its DataStore included, as it was; the same holds for the bare messages
`join_request` and `send_keys`, whose body is empty. -/
theorem malformed_request_faults (H : Str → Nat) (rpc : Str → Int → Str → Str) (n : Node)
    (body : Str) (f : Fault) (h : stoi body = Except.error f) :
    process_request H rpc n ("join_request|".toList ++ body) = (n, Outcome.fault f) ∧
    process_request H rpc n ("send_keys|".toList ++ body) = (n, Outcome.fault f) ∧
    process_request H rpc n "join_request".toList =
      (n, Outcome.fault Fault.invalid_argument) ∧
    process_request H rpc n "send_keys".toList =
      (n, Outcome.fault Fault.invalid_argument) := by
  have h1 : "join_request|".toList ++ body = "join_request".toList ++ '|' :: body := by simp
  have h2 : "send_keys|".toList ++ body = "send_keys".toList ++ '|' :: body := by simp
  have h3 : parse_request "join_request".toList = ("join_request".toList, []) := by decide
  have h4 : parse_request "send_keys".toList = ("send_keys".toList, []) := by decide
  have h5 : stoi [] = Except.error Fault.invalid_argument := by decide
  refine ⟨?_, ?_, ?_, ?_⟩
  · rw [h1, process_request_bar H rpc n _ _ (by decide),
      dispatch_join_request_error H rpc n body f h]
  · rw [h2, process_request_bar H rpc n _ _ (by decide),
      dispatch_send_keys_error H rpc n body f h]
  · unfold process_request
    rw [h3, dispatch_join_request_error H rpc n [] _ h5]
  · unfold process_request
    rw [h4, dispatch_send_keys_error H rpc n [] _ h5]

set_option maxRecDepth 100000 in
/-- C7, witness: the body `abc` at `node_Y_plain`, which holds `a ↦ 1` and
`t ↦ 9`: `std::stoi` throws `std::invalid_argument`, so
`join_request|abc` and `send_keys|abc` return no reply. -/
theorem malformed_request_faults_witness :
    stoi "abc".toList = Except.error Fault.invalid_argument ∧
    node_Y_plain.data_ = [("a".toList, "1".toList), ("t".toList, "9".toList)] ∧
    process_request hash_sum rpc_silent node_Y_plain ("join_request|".toList ++ "abc".toList) =
      (node_Y_plain, Outcome.fault Fault.invalid_argument) ∧
    process_request hash_sum rpc_silent node_Y_plain ("send_keys|".toList ++ "abc".toList) =
      (node_Y_plain, Outcome.fault Fault.invalid_argument) :=
  ⟨by decide, by decide,
    (malformed_request_faults hash_sum rpc_silent node_Y_plain "abc".toList
      Fault.invalid_argument (by decide)).1,
    (malformed_request_faults hash_sum rpc_silent node_Y_plain "abc".toList
      Fault.invalid_argument (by decide)).2.1⟩

set_option maxRecDepth 100000 in
/-- Further malformed requests at `node_Y_plain`: a number that does not fit
an `int` ends in `std::out_of_range`, white space alone in
`std::invalid_argument`, and `notify|5`, a body with fewer than three fields,
in an out-of-bounds index. No reply is returned. -/
theorem malformed_request_faults_examples :
    process_request hash_sum rpc_silent node_Y_plain "join_request|99999999999".toList =
      (node_Y_plain, Outcome.fault Fault.out_of_range) ∧
    process_request hash_sum rpc_silent node_Y_plain "send_keys| ".toList =
      (node_Y_plain, Outcome.fault Fault.invalid_argument) ∧
    process_request hash_sum rpc_silent node_Y_plain "notify|5".toList =
      (node_Y_plain, Outcome.fault Fault.index_out_of_bounds) := by
  decide

/-! ## C8: a freshly constructed node -/

/-- C8 (amended): immediately after `Node(ip, port)` the successor is the node
itself and the predecessor is the unset placeholder `NodeInfo()` (empty ip,
port 0, identifier -1); `get_successor` replies `<ip>|<port>` and
`get_predecessor` replies `|0`. -/
theorem new_node_pointers (H : Str → Nat) (rpc : Str → Int → Str → Str) (ip : Str)
    (port : Int) :
    (Node.new H ip port).succ_ = (Node.new H ip port).self_ ∧
    (Node.new H ip port).self_.ip = ip ∧ (Node.new H ip port).self_.port = port ∧
    (Node.new H ip port).pred_ = NodeInfo.unset ∧
    process_request H rpc (Node.new H ip port) "get_successor".toList =
      (Node.new H ip port, Outcome.reply (ip ++ "|".toList ++ to_string port)) ∧
    process_request H rpc (Node.new H ip port) "get_predecessor".toList =
      (Node.new H ip port, Outcome.reply "|0".toList) := by
  refine ⟨rfl, rfl, rfl, rfl, ?_, ?_⟩
  · have hp : parse_request "get_successor".toList = ("get_successor".toList, []) := by decide
    unfold process_request
    rw [hp, dispatch_get_successor]
    rfl
  · have hp : parse_request "get_predecessor".toList = ("get_predecessor".toList, []) := by
      decide
    unfold process_request
    have hu : NodeInfo.unset.str = "|0".toList := by decide
    rw [hp, dispatch_get_predecessor]
    show (Node.new H ip port, Outcome.reply NodeInfo.unset.str) = _
    rw [hu]

set_option maxRecDepth 100000 in
/-- C8, counterexample: on the fresh node `127.0.0.1|5000` the predecessor is
not the node itself, and `get_predecessor` replies `|0`, not
`127.0.0.1|5000`. -/
theorem new_node_predecessor_counterexample :
    node_Y = Node.new hash_sum "127.0.0.1".toList 5000 ∧
    node_Y.pred_ ≠ node_Y.self_ ∧
    process_request hash_sum rpc_silent node_Y "get_predecessor".toList =
      (node_Y, Outcome.reply "|0".toList) ∧
    "|0".toList ≠ "127.0.0.1".toList ++ "|".toList ++ to_string 5000 := by
  decide

/-! ## C9: read-only requests -/

/-- C9: for every node and every body, handling `join_request`,
`get_successor`, `get_predecessor` or `search_server` (with the body after a
vertical bar; the two `get_` requests also without one) leaves the whole
node, and so its predecessor, successor, finger table and DataStore, exactly
as it was. For `join_request` this includes the case where `std::stoi`
rejects the body. -/
theorem read_only_requests_frame (H : Str → Nat) (rpc : Str → Int → Str → Str) (n : Node)
    (body : Str) :
    (process_request H rpc n ("join_request|".toList ++ body)).1 = n ∧
    (process_request H rpc n ("get_successor|".toList ++ body)).1 = n ∧
    (process_request H rpc n ("get_predecessor|".toList ++ body)).1 = n ∧
    (process_request H rpc n ("search_server|".toList ++ body)).1 = n ∧
    (process_request H rpc n "get_successor".toList).1 = n ∧
    (process_request H rpc n "get_predecessor".toList).1 = n := by
  have h1 : "join_request|".toList ++ body = "join_request".toList ++ '|' :: body := by simp
  have h2 : "get_successor|".toList ++ body = "get_successor".toList ++ '|' :: body := by simp
  have h3 : "get_predecessor|".toList ++ body = "get_predecessor".toList ++ '|' :: body := by
    simp
  have h4 : "search_server|".toList ++ body = "search_server".toList ++ '|' :: body := by simp
  have h5 : parse_request "get_successor".toList = ("get_successor".toList, []) := by decide
  have h6 : parse_request "get_predecessor".toList = ("get_predecessor".toList, []) := by
    decide
  refine ⟨?_, ?_, ?_, ?_, ?_, ?_⟩
  · rw [h1, process_request_bar H rpc n _ _ (by decide)]
    cases hst : stoi body with
    | error f => rw [dispatch_join_request_error H rpc n body f hst]
    | ok nid => rw [dispatch_join_request H rpc n body nid hst]
  · rw [h2, process_request_bar H rpc n _ _ (by decide), dispatch_get_successor]
  · rw [h3, process_request_bar H rpc n _ _ (by decide), dispatch_get_predecessor]
  · rw [h4, process_request_bar H rpc n _ _ (by decide), dispatch_search_server]
  · unfold process_request
    rw [h5, dispatch_get_successor]
  · unfold process_request
    rw [h6, dispatch_get_predecessor]

/-! ## C10: local insert and search -/

theorem insert_body_pair (data : Store) (k v : Str) (hk : ':' ∉ k) :
    insert_body data (k ++ ':' :: v) = insert data k v := by
  unfold insert_body
  simp only [find_append_sep _ _ _ hk, substr_prefix, succ_pos, substr_suffix]

/-- C10: for every node, every key `k` without colon and every non-empty
value `v`, `insert_server|k:v` replies `Inserted`, changes only the
DataStore, and a following `search_server|k` replies exactly `v` and leaves
the node as it is; the value held under every other key is as before. No
identifier or pointer of the node is consulted. -/
theorem insert_search_roundtrip (H : Str → Nat) (rpc : Str → Int → Str → Str) (n : Node)
    (k v : Str) (hk : ':' ∉ k) (hv : v ≠ []) :
    process_request H rpc n ("insert_server|".toList ++ k ++ ":".toList ++ v) =
      ({ n with data_ := insert n.data_ k v }, Outcome.reply "Inserted".toList) ∧
    process_request H rpc
        (process_request H rpc n ("insert_server|".toList ++ k ++ ":".toList ++ v)).1
        ("search_server|".toList ++ k) =
      ({ n with data_ := insert n.data_ k v }, Outcome.reply v) ∧
    (∀ k2, k2 ≠ k → lookup (insert n.data_ k v) k2 = lookup n.data_ k2) ∧
    (∀ k2, k2 ≠ k → search (insert n.data_ k v) k2 = search n.data_ k2) := by
  have h1 : "insert_server|".toList ++ k ++ ":".toList ++ v =
      "insert_server".toList ++ '|' :: (k ++ ':' :: v) := by simp
  have h2 : "search_server|".toList ++ k = "search_server".toList ++ '|' :: k := by simp
  have hins : process_request H rpc n ("insert_server|".toList ++ k ++ ":".toList ++ v) =
      ({ n with data_ := insert n.data_ k v }, Outcome.reply "Inserted".toList) := by
    rw [h1, process_request_bar H rpc n _ _ (by decide), dispatch_insert_server,
      insert_body_pair _ _ _ hk]
  refine ⟨hins, ?_, ?_, ?_⟩
  · rw [hins, h2, process_request_bar H rpc _ _ _ (by decide), dispatch_search_server]
    have hs : search (insert n.data_ k v) k = v := by
      rw [search_eq_lookup, lookup_insert_same]
      rfl
    simp only [hs, if_neg hv]
  · intro k2 hne
    exact lookup_insert_other _ _ _ _ hne
  · intro k2 hne
    rw [search_eq_lookup, search_eq_lookup, lookup_insert_other _ _ _ _ hne]

set_option maxRecDepth 100000 in
/-- C10, witness: key `foo` and value `bar` at `node_X_joined`. -/
theorem insert_search_roundtrip_witness :
    ':' ∉ "foo".toList ∧ "bar".toList ≠ [] ∧
    process_request hash_sum rpc_silent
        (process_request hash_sum rpc_silent node_X_joined
          ("insert_server|".toList ++ "foo".toList ++ ":".toList ++ "bar".toList)).1
        ("search_server|".toList ++ "foo".toList) =
      ({ node_X_joined with data_ := insert node_X_joined.data_ "foo".toList "bar".toList },
        Outcome.reply "bar".toList) :=
  ⟨by decide, by decide,
    (insert_search_roundtrip hash_sum rpc_silent node_X_joined "foo".toList "bar".toList
      (by decide) (by decide)).2.1⟩

/-! ## C11: `search_server` -/

theorem lookup_eq_none_iff (data : Store) (k : Str) :
    lookup data k = none ↔ k ∉ data.map Prod.fst := by
  unfold lookup
  rw [Option.map_eq_none', List.find?_eq_none]
  constructor
  · intro h hmem
    obtain ⟨p, hp, hpk⟩ := List.mem_map.mp hmem
    exact h p hp (by simp [hpk])
  · intro h p hp
    simp only [decide_eq_true_eq]
    intro e
    exact h (List.mem_map.mpr ⟨p, hp, e⟩)

theorem process_request_search_server (H : Str → Nat) (rpc : Str → Int → Str → Str)
    (n : Node) (k : Str) :
    process_request H rpc n ("search_server|".toList ++ k) =
      (n, Outcome.reply
        (if search n.data_ k = [] then "NOT FOUND".toList else search n.data_ k)) := by
  have h : "search_server|".toList ++ k = "search_server".toList ++ '|' :: k := by simp
  rw [h, process_request_bar H rpc n _ _ (by decide), dispatch_search_server]

/-- C11 (amended): for every node and key `k`, `search_server|k` leaves the
node as it is and replies the value stored under `k` when `k` is a key whose
value is not empty, and `NOT FOUND` when `k` is not a key or its value is
empty. So the reply is `NOT FOUND` if and only if `k` is not a key, or the
value stored under `k` is empty or is the string `NOT FOUND` itself. -/
theorem search_server_reply (H : Str → Nat) (rpc : Str → Int → Str → Str) (n : Node)
    (k : Str) :
    (k ∉ n.data_.map Prod.fst →
      process_request H rpc n ("search_server|".toList ++ k) = (n, Outcome.reply NOT_FOUND)) ∧
    (lookup n.data_ k = some [] →
      process_request H rpc n ("search_server|".toList ++ k) = (n, Outcome.reply NOT_FOUND)) ∧
    (∀ v, lookup n.data_ k = some v → v ≠ [] →
      process_request H rpc n ("search_server|".toList ++ k) = (n, Outcome.reply v)) ∧
    (process_request H rpc n ("search_server|".toList ++ k) = (n, Outcome.reply NOT_FOUND) ↔
      k ∉ n.data_.map Prod.fst ∨ lookup n.data_ k = some [] ∨
        lookup n.data_ k = some NOT_FOUND) := by
  rw [process_request_search_server, search_eq_lookup, ← lookup_eq_none_iff]
  have hnf : NOT_FOUND = "NOT FOUND".toList := rfl
  have hne : NOT_FOUND ≠ [] := by decide
  cases hl : lookup n.data_ k with
  | none => simp [hnf]
  | some v =>
    by_cases hv : v = []
    · simp [hv, hnf]
    · refine ⟨fun h => by simp at h, fun h => absurd (Option.some.inj h) hv, ?_, ?_⟩
      · intro w hw _
        rw [← Option.some.inj hw]
        simp [hv]
      · simp only [Option.getD_some, if_neg hv, Prod.mk.injEq, true_and, Outcome.reply.injEq,
          Option.some.injEq, false_or, reduceCtorEq]
        constructor
        · intro h
          exact Or.inr h
        · rintro (h | h)
          · exact absurd h hv
          · exact h

set_option maxRecDepth 100000 in
/-- C11, counterexample: after `insert_server|k:` the key `k` is a key of the
DataStore of `node_X_empty_value` (held with the empty value), yet
`search_server|k` replies `NOT FOUND`; and after `insert_server|k:NOT FOUND`
the reply `NOT FOUND` is the stored value, not a miss. -/
theorem search_server_empty_value_counterexample :
    node_X_empty_value.data_ = [("k".toList, [])] ∧
    "k".toList ∈ node_X_empty_value.data_.map Prod.fst ∧
    process_request hash_sum rpc_silent node_X_empty_value "search_server|k".toList =
      (node_X_empty_value, Outcome.reply "NOT FOUND".toList) ∧
    "k".toList ∈ node_X_literal_value.data_.map Prod.fst ∧
    process_request hash_sum rpc_silent node_X_literal_value "search_server|k".toList =
      (node_X_literal_value, Outcome.reply "NOT FOUND".toList) := by
  decide

/-! ## C12: `delete_server` -/

theorem lookup_erase_same (data : Store) (k : Str) : lookup (erase data k) k = none := by
  rw [lookup_eq_none_iff]
  intro hmem
  obtain ⟨p, hp, hpk⟩ := List.mem_map.mp hmem
  have := (List.mem_filter.mp hp).2
  simp [hpk] at this

theorem lookup_erase_other (data : Store) (k k2 : Str) (hne : k2 ≠ k) :
    lookup (erase data k) k2 = lookup data k2 := by
  unfold lookup erase
  induction data with
  | nil => rfl
  | cons p rest ih =>
    obtain ⟨a, b⟩ := p
    have hkk : ¬ k = k2 := fun e => hne e.symm
    by_cases hp : a = k
    · subst hp
      rw [List.filter_cons_of_neg (by simp), List.find?_cons_of_neg _ (by simpa using hkk)]
      exact ih
    · rw [List.filter_cons_of_pos (by simpa using hp)]
      by_cases hp2 : a = k2
      · rw [List.find?_cons_of_pos _ (by simpa using hp2),
          List.find?_cons_of_pos _ (by simpa using hp2)]
      · rw [List.find?_cons_of_neg _ (by simpa using hp2),
          List.find?_cons_of_neg _ (by simpa using hp2)]
        exact ih

theorem erase_erase (data : Store) (k : Str) : erase (erase data k) k = erase data k := by
  unfold erase
  rw [List.filter_filter]
  apply List.filter_congr
  intro p _
  simp

theorem process_request_delete_server (H : Str → Nat) (rpc : Str → Int → Str → Str)
    (n : Node) (k : Str) :
    process_request H rpc n ("delete_server|".toList ++ k) =
      ({ n with data_ := remove n.data_ k }, Outcome.reply "Deleted".toList) := by
  have h : "delete_server|".toList ++ k = "delete_server".toList ++ '|' :: k := by simp
  rw [h, process_request_bar H rpc n _ _ (by decide), dispatch_delete_server]

/-- C12: for every node and key `k`, `delete_server|k` replies `Deleted`
whether or not `k` was present and changes only the DataStore; a following
`search_server|k` replies `NOT FOUND`; the value held under every other key is
as before; and a second `delete_server|k` replies `Deleted` again and leaves
the node equal to the node after the first. -/
theorem delete_server_idempotent (H : Str → Nat) (rpc : Str → Int → Str → Str) (n : Node)
    (k : Str) :
    process_request H rpc n ("delete_server|".toList ++ k) =
      ({ n with data_ := remove n.data_ k }, Outcome.reply "Deleted".toList) ∧
    process_request H rpc (process_request H rpc n ("delete_server|".toList ++ k)).1
        ("search_server|".toList ++ k) =
      ((process_request H rpc n ("delete_server|".toList ++ k)).1,
        Outcome.reply "NOT FOUND".toList) ∧
    (∀ k2, k2 ≠ k →
      lookup (process_request H rpc n ("delete_server|".toList ++ k)).1.data_ k2 =
        lookup n.data_ k2) ∧
    process_request H rpc (process_request H rpc n ("delete_server|".toList ++ k)).1
        ("delete_server|".toList ++ k) =
      ((process_request H rpc n ("delete_server|".toList ++ k)).1,
        Outcome.reply "Deleted".toList) := by
  have hdel := process_request_delete_server H rpc n k
  refine ⟨hdel, ?_, ?_, ?_⟩
  · rw [hdel, process_request_search_server]
    have hs : search (remove n.data_ k) k = [] := by
      rw [search_eq_lookup]
      unfold remove
      rw [lookup_erase_same]
      rfl
    simp only [hs, if_true]
  · intro k2 hne
    rw [hdel]
    exact lookup_erase_other _ _ _ hne
  · rw [hdel, process_request_delete_server]
    simp only [remove, erase_erase]

/-! ## C13: construction of the finger table -/

theorem finger_start_eq (s c : Int) (hs : 0 ≤ s ∧ s < 128) (hc : 0 ≤ c ∧ c ≤ 64) :
    Int.tmod (wrap32 (s + c)) RING_SIZE = (s + c) % 128 := by
  have h1 : wrap32 (s + c) = s + c := by unfold wrap32; omega
  rw [h1, RING_SIZE_eq, Int.tmod_eq_emod (by omega) (by omega)]

theorem FingerTable_eq (s : Int) (hs : 0 ≤ s ∧ s < 128) :
    FingerTable s =
      [((s + 1) % 128, NodeInfo.unset), ((s + 2) % 128, NodeInfo.unset),
       ((s + 4) % 128, NodeInfo.unset), ((s + 8) % 128, NodeInfo.unset),
       ((s + 16) % 128, NodeInfo.unset), ((s + 32) % 128, NodeInfo.unset),
       ((s + 64) % 128, NodeInfo.unset)] := by
  have h : FingerTable s =
      [(Int.tmod (wrap32 (s + 1)) RING_SIZE, NodeInfo.unset),
       (Int.tmod (wrap32 (s + 2)) RING_SIZE, NodeInfo.unset),
       (Int.tmod (wrap32 (s + 4)) RING_SIZE, NodeInfo.unset),
       (Int.tmod (wrap32 (s + 8)) RING_SIZE, NodeInfo.unset),
       (Int.tmod (wrap32 (s + 16)) RING_SIZE, NodeInfo.unset),
       (Int.tmod (wrap32 (s + 32)) RING_SIZE, NodeInfo.unset),
       (Int.tmod (wrap32 (s + 64)) RING_SIZE, NodeInfo.unset)] := by
    simp [FingerTable, m, List.range_succ]
  rw [h]
  simp only [finger_start_eq s _ hs (by omega : (0 : Int) ≤ 1 ∧ (1 : Int) ≤ 64),
    finger_start_eq s _ hs (by omega : (0 : Int) ≤ 2 ∧ (2 : Int) ≤ 64),
    finger_start_eq s _ hs (by omega : (0 : Int) ≤ 4 ∧ (4 : Int) ≤ 64),
    finger_start_eq s _ hs (by omega : (0 : Int) ≤ 8 ∧ (8 : Int) ≤ 64),
    finger_start_eq s _ hs (by omega : (0 : Int) ≤ 16 ∧ (16 : Int) ≤ 64),
    finger_start_eq s _ hs (by omega : (0 : Int) ≤ 32 ∧ (32 : Int) ≤ 64),
    finger_start_eq s _ hs (by omega : (0 : Int) ≤ 64 ∧ (64 : Int) ≤ 64)]

/-- C13: for every self identifier `s` in `[0, 128)`, `FingerTable(s)` has
exactly `m = 7` entries, entry `i` has start `(s + 2^i) mod 128`, every start
lies in `[0, 128)`, the seven starts are pairwise distinct, and the node of
every entry is the unset placeholder `NodeInfo()`, whose identifier is -1. -/
theorem finger_table_construction (s : Int) (hs : 0 ≤ s ∧ s < 128) :
    (FingerTable s).length = m ∧ m = 7 ∧
    (∀ i : Nat, i < 7 → (FingerTable s)[i]? = some ((s + 2 ^ i) % 128, NodeInfo.unset)) ∧
    (∀ e ∈ FingerTable s, 0 ≤ e.1 ∧ e.1 < 128) ∧
    ((FingerTable s).map Prod.fst).Nodup ∧
    (∀ e ∈ FingerTable s, e.2 = NodeInfo.unset) ∧
    NodeInfo.unset.id = -1 := by
  rw [FingerTable_eq s hs]
  refine ⟨rfl, rfl, ?_, ?_, ?_, ?_, rfl⟩
  · intro i hi
    interval_cases i <;> rfl
  · intro e he
    simp only [List.mem_cons, List.mem_singleton, List.not_mem_nil, or_false] at he
    rcases he with h | h | h | h | h | h | h <;> rw [h] <;> constructor <;> omega
  · simp only [List.map_cons, List.map_nil, List.nodup_cons, List.mem_cons,
      List.mem_singleton, List.not_mem_nil, or_false, not_or, List.nodup_nil, and_true,
      not_false_eq_true]
    omega
  · intro e he
    simp only [List.mem_cons, List.mem_singleton, List.not_mem_nil, or_false] at he
    rcases he with h | h | h | h | h | h | h <;> rw [h]

/-- C13, witness: the finger table of `node_Y`, whose identifier is 118; its
starts are 119, 120, 122, 126, 6, 22 and 54. -/
theorem finger_table_construction_witness :
    (0 ≤ (118 : Int) ∧ (118 : Int) < 128) ∧ node_Y.self_id = 118 ∧
    node_Y.fingers_ = FingerTable 118 ∧
    (FingerTable 118).map Prod.fst = [119, 120, 122, 126, 6, 22, 54] ∧
    ((FingerTable 118).map Prod.fst).Nodup :=
  ⟨by decide, by decide, by decide, by decide,
    (finger_table_construction 118 (by decide)).2.2.2.2.1⟩

end Chord
